import Mathlib

/-!
Shallow embedding of cloudbeaver's `TableViewerModel`
(webapp `plugin-data-viewer`, file `TableViewer/TableViewerModel.ts`)
together with spec-modelled versions of its collaborators
`TableDataModel` and `TableEditor` (their sources are not in the
repository snapshot; only the spec describes their contracts).

Conventions of the embedding:
- A `TableRow` is a list of cell values (`List String`); a sparse JS
  array of rows is a `List (Option TableRow)` where `none` is a hole.
- JS `Map<number, TableRow>` (`SomeTableRows`) is a `List (Nat × TableRow)`
  in insertion order; `Map.set` is `mapSet` below (replace in place when
  the key exists, append otherwise), and `forEach` iterates in that order.
- Async remote collaborators (`requestDataAsync`, `saveChanges`) are
  oracles: each call site takes the call's outcome
  (`Except RemoteError IRequestDataResult`) as an explicit argument.
- The retry dialog is an oracle as well: the user's boolean decision for
  each failed save attempt is an explicit argument.
- Calls to `agGridModel.actions.updateRowValue(rowNumber, row)` are
  recorded in an append-only `bridge` log. Pure notifications
  (`changeChunkSize`, `resetData` on the grid) carry no data the claims
  observe and are not logged.
- Thrown JS exceptions are the closed variant `RemoteError`:
  `gql` models `GQLError` (with `errorText` and `hasDetails()`), and
  `generic` models any other `Error` (with `name` and `message`).
-/

/-- Cell value of a table cell. -/
abbrev CellValue := String

/-- A table row: a sequence of cell values (`TableRow` in the source). -/
abbrev TableRow := List CellValue

/-- A table column, identified by its name (`TableColumn` in the source;
only identity matters to the claims). -/
abbrev TableColumn := String

/-- JS `Map<number, TableRow>` (`SomeTableRows` in the source), kept in
insertion order. -/
abbrev SomeTableRows := List (Nat × TableRow)

/-- JS `Map.set`: if the key is present, replace its value in place
(keeping the original position); otherwise append the new entry. -/
def mapSet (l : SomeTableRows) (k : Nat) (v : TableRow) : SomeTableRows :=
  if l.any (fun p => p.1 = k) then
    l.map (fun p => if p.1 = k then (k, v) else p)
  else
    l ++ [(k, v)]

/-- Data of a `GQLError`: its user-facing `errorText` and the result of
`hasDetails()`. -/
structure GQLErrorData where
  errorText : String
  details : Bool
  deriving DecidableEq, Repr

/-- Closed variant of the exceptions thrown by remote collaborators:
a structured `GQLError` or a generic JS `Error` (name + message). -/
inductive RemoteError where
  | gql (e : GQLErrorData)
  | generic (name message : String)
  deriving DecidableEq, Repr

/-- Result shape of both remote collaborators (`IRequestDataResult` in
the source). -/
structure IRequestDataResult where
  rows : List TableRow
  columns : List TableColumn
  isFullyLoaded : Bool
  duration : Option Nat
  statusMessage : String
  deriving DecidableEq, Repr

/-- Data returned to the grid by `onRequestData` (`IRequestedData` in
the source); its `rows` may contain holes when served from a sparse
cache. -/
structure IRequestedData where
  rows : List (Option TableRow)
  columns : List TableColumn
  isFullyLoaded : Bool
  deriving DecidableEq, Repr

/-- Pending edit record for one row (`RowDiff` in the source):
the row's index, its pristine `source` value and its `edited` value. -/
structure RowDiff where
  rowIndex : Nat
  source : TableRow
  edited : TableRow
  deriving DecidableEq, Repr

/-- The `fetchingSettings` constant of the source. -/
structure FetchingSettings where
  fetchMin : Int
  fetchMax : Int
  fetchDefault : Int
  deriving DecidableEq, Repr

def fetchingSettings : FetchingSettings :=
  { fetchMin := 1, fetchMax := 5000, fetchDefault := 200 }

/-- Modelled from the spec: the `TableDataModel` collaborator (its
source file is absent from the snapshot). Spec §4.1: an ordered,
sparse-capable table of rows and columns with chunk-presence tracking;
loaded ranges are tracked as (position, length) pairs rather than
per-row flags. -/
structure TableDataModel where
  rows : List (Option TableRow)
  columns : List TableColumn
  loadedRanges : List (Nat × Nat)
  deriving DecidableEq, Repr

namespace TableDataModel

/-- The empty store a fresh `TableDataModel()` starts from. -/
def empty : TableDataModel :=
  { rows := [], columns := [], loadedRanges := [] }

/-- Modelled from the spec: `isChunkLoaded(offset, count)` is true iff
every row index in `[offset, offset+count)` lies in some loaded range. -/
def isChunkLoaded (m : TableDataModel) (offset count : Nat) : Bool :=
  (List.range count).all fun j =>
    m.loadedRanges.any fun r =>
      decide (r.1 ≤ offset + j) && decide (offset + j < r.1 + r.2)

/-- Write one row at index `i`, extending the sparse array with holes
when `i` is beyond the current end (JS `array[i] = v`). -/
def listSetPad (rs : List (Option TableRow)) (i : Nat) (v : TableRow) :
    List (Option TableRow) :=
  if i < rs.length then rs.set i (some v)
  else rs ++ List.replicate (i - rs.length) none ++ [some v]

/-- Write `rows` consecutively starting at index `pos`. -/
def writeRowsAt (rs : List (Option TableRow)) (pos : Nat) :
    List TableRow → List (Option TableRow)
  | [] => rs
  | r :: rest => writeRowsAt (listSetPad rs pos r) (pos + 1) rest

/-- Modelled from the spec: `insertRows(position, rows)` writes rows
starting at `position`, extending the store if needed and overwriting
rows already present; the written range is recorded as loaded. -/
def insertRows (m : TableDataModel) (position : Nat) (rows : List TableRow) :
    TableDataModel :=
  { m with
    rows := writeRowsAt m.rows position rows
    loadedRanges := m.loadedRanges ++ [(position, rows.length)] }

/-- Modelled from the spec: `pushRows(rows)` appends at the current
end. -/
def pushRows (m : TableDataModel) (rows : List TableRow) : TableDataModel :=
  m.insertRows m.rows.length rows

/-- Modelled from the spec: `overWrite(columns)` replaces the column
schema wholesale. -/
def overWrite (m : TableDataModel) (columns : List TableColumn) :
    TableDataModel :=
  { m with columns := columns }

/-- Modelled from the spec: `updateRows(mapping)` is a targeted
overwrite, writing each mapped row at its row index. -/
def updateRows (m : TableDataModel) (mapping : SomeTableRows) :
    TableDataModel :=
  { m with rows := mapping.foldl (fun rs p => listSetPad rs p.1 p.2) m.rows }

/-- Modelled from the spec: `getChunk(offset, count)` returns the rows
in `[offset, offset+count)` (the caller must have verified loadedness). -/
def getChunk (m : TableDataModel) (offset count : Nat) :
    List (Option TableRow) :=
  (m.rows.drop offset).take count

/-- Modelled from the spec: `resetData()` clears all rows and
loaded-range tracking; columns untouched. -/
def resetData (m : TableDataModel) : TableDataModel :=
  { m with rows := [], loadedRanges := [] }

/-- Modelled from the spec: `isEmpty()`. -/
def isEmpty (m : TableDataModel) : Bool :=
  m.rows.length = 0

/-- The row materialized at index `i`, if any (holes and out-of-range
indices both give `none`). -/
def getRow (m : TableDataModel) (i : Nat) : Option TableRow :=
  m.rows[i]?.bind id

end TableDataModel

/-- State of one `TableViewerModel` instance. Observable fields keep
their source names (`_hasMoreRows`, `_isLoaderVisible`, `_chunkSize`
are the private backing fields); `editor` is the spec-modelled
`TableEditor`'s pending diff list in insertion order; `bridge` is the
log of `updateRowValue` calls forwarded to the grid; `noLoader` is the
`noLoaderWhileRequestingDataAsync` init option. -/
structure TableViewerModel where
  data : TableDataModel
  editor : List RowDiff
  queryDuration : Nat
  requestStatusMessage : String
  errorMessage : String
  hasDetails : Bool
  hasMoreRows : Bool
  isLoaderVisibleF : Bool
  chunkSize : Int
  exception : Option GQLErrorData
  bridge : SomeTableRows
  noLoader : Bool
  deriving DecidableEq, Repr

namespace TableViewerModel

/-- The source's `getDefaultRowsCount(count?)`: `count ? max(fetchMin,
min(count, fetchMax)) : fetchDefault` — `none` models an omitted
argument and `0` is falsy. -/
def getDefaultRowsCount (count : Option Int) : Int :=
  match count with
  | none => fetchingSettings.fetchDefault
  | some c =>
    if c = 0 then fetchingSettings.fetchDefault
    else max fetchingSettings.fetchMin (min c fetchingSettings.fetchMax)

/-- The getter `isFullyLoaded`: `!this._hasMoreRows`. -/
def isFullyLoaded (m : TableViewerModel) : Bool :=
  !m.hasMoreRows

/-- The source's `clearErrors()`: resets `errorMessage` only. -/
def clearErrors (m : TableViewerModel) : TableViewerModel :=
  { m with errorMessage := "" }

/-- The source's `showError(exception)`: clears `exception` and
`hasDetails`, then fills the error fields according to the exception's
kind. -/
def showError (m : TableViewerModel) (e : RemoteError) : TableViewerModel :=
  match e with
  | .gql g =>
    { m with
      exception := some g
      hasDetails := g.details
      errorMessage := g.errorText }
  | .generic name message =>
    { m with
      exception := none
      hasDetails := false
      errorMessage := name ++ ": " ++ message }

/-- The source's `updateInfo(status, duration?)`. -/
def updateInfo (m : TableViewerModel) (status : String)
    (duration : Option Nat) : TableViewerModel :=
  { m with queryDuration := duration.getD 0, requestStatusMessage := status }

/-- The source's private `insertRows(position, rows, hasMore)`:
`_hasMoreRows` adopts `hasMore` only when the inserted range is a
genuine addition (extends past the pre-insertion row count). -/
def insertRows (m : TableViewerModel) (position : Nat)
    (rows : List TableRow) (hasMore : Bool) : TableViewerModel :=
  let isRowsAddition := m.data.rows.length < position + rows.length
  { m with
    data := m.data.insertRows position rows
    hasMoreRows := if isRowsAddition then hasMore else m.hasMoreRows }

/-- The source's private `pushRows(rows, hasMore)`. -/
def pushRows (m : TableViewerModel) (rows : List TableRow)
    (hasMore : Bool) : TableViewerModel :=
  { m with data := m.data.pushRows rows, hasMoreRows := hasMore }

/-- The source's `updateAgGridRows(rows)`: forwards every (rowNumber,
row) entry to `agGridModel.actions.updateRowValue` in map order. -/
def updateAgGridRows (m : TableViewerModel) (rows : SomeTableRows) :
    TableViewerModel :=
  { m with bridge := m.bridge ++ rows }

/-- The source's `updateChunkSize(value)`. -/
def updateChunkSize (m : TableViewerModel) (value : Option Int) :
    TableViewerModel :=
  { m with chunkSize := getDefaultRowsCount value }

/-- The public `setChunkSize = (count) => this.updateChunkSize(count)`. -/
def setChunkSize (m : TableViewerModel) (count : Int) : TableViewerModel :=
  m.updateChunkSize (some count)

/-- The source's `resetData()`. -/
def resetData (m : TableViewerModel) : TableViewerModel :=
  { m with
    data := m.data.resetData
    requestStatusMessage := ""
    queryDuration := 0
    hasMoreRows := true
    errorMessage := "" }

/-- Modelled from the spec: `TableEditor.editCellValue(row, col, value)`
(§4.2): on the first edit of `row`, snapshot the store's current row as
`source` and set `edited` to it with column `col` replaced; on a later
edit of the same row, update `edited` in place. Never touches the
store. -/
def editCellValue (m : TableViewerModel) (row col : Nat)
    (value : CellValue) : TableViewerModel :=
  match m.editor.find? (fun d => d.rowIndex = row) with
  | some _ =>
    { m with
      editor := m.editor.map fun d =>
        if d.rowIndex = row then { d with edited := d.edited.set col value }
        else d }
  | none =>
    let current := (m.data.getRow row).getD []
    { m with
      editor := m.editor ++
        [{ rowIndex := row, source := current,
           edited := current.set col value }] }

/-- The `onCellEditingStopped` grid callback: delegates to
`editCellValue`. -/
def onCellEditingStopped (m : TableViewerModel) (rowNumber colNumber : Nat)
    (value : CellValue) : TableViewerModel :=
  m.editCellValue rowNumber colNumber value

/-- The state right after line 123 of the source (`this._isLoaderVisible
= !this.init.noLoaderWhileRequestingDataAsync`): the in-flight state of
a remote fetch. -/
def requestBegin (m : TableViewerModel) : TableViewerModel :=
  { m with isLoaderVisibleF := !m.noLoader }

/-- The state right after line 234 of the source (`this._isLoaderVisible
= true`): the in-flight state of one remote save attempt. -/
def saveBegin (m : TableViewerModel) : TableViewerModel :=
  { m with isLoaderVisibleF := true }

/-- The source's `onRequestData(rowOffset, count)`; `outcome` is the
oracle for the `requestDataAsync` collaborator (examined only on the
cache-miss path). Returns the new state and the value
returned/re-raised to the grid. -/
def onRequestData (m : TableViewerModel) (rowOffset count : Nat)
    (outcome : Except RemoteError IRequestDataResult) :
    TableViewerModel × Except RemoteError IRequestedData :=
  if m.data.isChunkLoaded rowOffset count || m.isFullyLoaded then
    (m, .ok
      { rows := m.data.getChunk rowOffset count
        columns := m.data.columns
        isFullyLoaded := m.isFullyLoaded })
  else
    let m1 := m.requestBegin
    match outcome with
    | .ok response =>
      let m2 := m1.insertRows rowOffset response.rows (!response.isFullyLoaded)
      let m3 :=
        if m2.data.columns.length = 0 then
          { m2 with data := m2.data.overWrite response.columns }
        else m2
      let m4 := m3.clearErrors
      let m5 := m4.updateInfo response.statusMessage response.duration
      ({ m5 with isLoaderVisibleF := false },
        .ok
          { rows := response.rows.map some
            columns := response.columns
            isFullyLoaded := response.isFullyLoaded })
    | .error e =>
      ({ m1.showError e with isLoaderVisibleF := false }, .error e)

/-- The source's `zipDiffAndResults(diff, newRows)`: fails when the
lengths differ (throwing a generic `Error`), otherwise builds the
`rowIndex -> newRow` map by `Map.set` in diff order. -/
def zipDiffAndResults (diff : List RowDiff) (newRows : List TableRow) :
    Except RemoteError SomeTableRows :=
  if diff.length ≠ newRows.length then
    .error (.generic "Error" "expected that new rows have same length as diff")
  else
    .ok ((diff.zip newRows).foldl (fun acc p => mapSet acc p.1.rowIndex p.2) [])

/-- The source's `trySaveChanges(diffs)`; `outcome` is the oracle for
the `saveChanges` collaborator. Returns the new state and the exception
the attempt threw, if any (`none` = attempt committed). The `finally`
block clears the loader flag on every path. -/
def trySaveChanges (m : TableViewerModel) (diffs : List RowDiff) :
    Except RemoteError IRequestDataResult →
    TableViewerModel × Option RemoteError
  | .error e => ({ m.saveBegin with isLoaderVisibleF := false }, some e)
  | .ok data =>
    match zipDiffAndResults diffs data.rows with
    | .error e => ({ m.saveBegin with isLoaderVisibleF := false }, some e)
    | .ok someRows =>
      let m2 := { m.saveBegin with editor := [] }
      let m3 := { m2 with data := m2.data.updateRows someRows }
      let m4 := m3.updateAgGridRows someRows
      let m5 := m4.clearErrors
      let m6 := m5.updateInfo data.statusMessage data.duration
      ({ m6 with isLoaderVisibleF := false }, none)

/-- The source's `revertChanges(diffs)`: clear the pending set, then
push each diff's pristine `source` row to the grid bridge (building a
`Map` first, in diff order); the store is untouched. -/
def revertChanges (m : TableViewerModel) (diffs : List RowDiff) :
    TableViewerModel :=
  let m1 := { m with editor := [] }
  let initialRows := diffs.foldl (fun acc d => mapSet acc d.rowIndex d.source) []
  m1.updateAgGridRows initialRows

/-- The `onEditCancel` grid callback: reverts the current pending
diffs. -/
def onEditCancel (m : TableViewerModel) : TableViewerModel :=
  m.revertChanges m.editor

/-- The `while (true)` retry loop of `onSaveChanges`: each oracle entry
is one attempt's `saveChanges` outcome paired with the user's dialog
decision should the attempt fail (`true` = retry). The dialog itself
only produces that decision; it changes no model state. An exhausted
oracle leaves the loop parked at the dialog. -/
def saveLoop (diffs : List RowDiff) :
    TableViewerModel → List (Except RemoteError IRequestDataResult × Bool) →
    TableViewerModel
  | m, [] => m
  | m, (outcome, tryAgain) :: rest =>
    let r := m.trySaveChanges diffs outcome
    match r.2 with
    | none => r.1
    | some _ =>
      if tryAgain then saveLoop diffs r.1 rest
      else r.1.revertChanges diffs

/-- The source's `onSaveChanges()` (the `onEditSave` grid callback):
drains the pending diffs once and, unless they are empty, runs the
retry loop with them. -/
def onSaveChanges (m : TableViewerModel)
    (oracle : List (Except RemoteError IRequestDataResult × Bool)) :
    TableViewerModel :=
  let diffs := m.editor
  if diffs.length = 0 then m else saveLoop diffs m oracle

/-- The state a `new TableViewerModel(init, …)` starts from before the
constructor body runs (field initializers only). -/
def initModel (noLoader : Bool) : TableViewerModel :=
  { data := TableDataModel.empty
    editor := []
    queryDuration := 0
    requestStatusMessage := ""
    errorMessage := ""
    hasDetails := false
    hasMoreRows := true
    isLoaderVisibleF := false
    chunkSize := getDefaultRowsCount none
    exception := none
    bridge := []
    noLoader := noLoader }

/-- The constructor: when an `initialState` is given, insert its rows at
position 0 (with `!isFullyLoaded` as the `hasMore` argument), overwrite
the columns, and record status/duration. -/
def mkTableViewerModel (noLoader : Bool) :
    Option IRequestDataResult → TableViewerModel
  | none => initModel noLoader
  | some st =>
    let m := initModel noLoader
    let m := m.insertRows 0 st.rows (!st.isFullyLoaded)
    let m := { m with data := m.data.overWrite st.columns }
    m.updateInfo st.statusMessage st.duration

/-- One externally triggered, completed operation on the view model,
used to reason about all quiescent (between-operations) states. -/
inductive Event where
  | fetch (rowOffset count : Nat)
      (outcome : Except RemoteError IRequestDataResult)
  | save (oracle : List (Except RemoteError IRequestDataResult × Bool))
  | editCell (row col : Nat) (value : CellValue)
  | editCancel
  | reset
  | chunk (count : Int)

/-- Apply one completed operation. -/
def applyEvent (m : TableViewerModel) : Event → TableViewerModel
  | .fetch o c out => (m.onRequestData o c out).1
  | .save oracle => m.onSaveChanges oracle
  | .editCell r c v => m.editCellValue r c v
  | .editCancel => m.onEditCancel
  | .reset => m.resetData
  | .chunk c => m.setChunkSize c

/-- Run a sequence of completed operations. -/
def run (m : TableViewerModel) : List Event → TableViewerModel
  | [] => m
  | e :: es => run (m.applyEvent e) es

/-- Run a sequence of `onRequestData` calls (a fetch-only trace). -/
def runFetches (m : TableViewerModel) :
    List (Nat × Nat × Except RemoteError IRequestDataResult) →
    TableViewerModel
  | [] => m
  | (o, c, out) :: rest => runFetches (m.onRequestData o c out).1 rest

end TableViewerModel

/-! Concrete fixtures used by witnesses and counterexamples. -/

/-- A successful fetch response carrying one row. -/
def respSuccess : IRequestDataResult :=
  { rows := [["r1"]], columns := ["c1"], isFullyLoaded := false,
    duration := some 5, statusMessage := "done" }

/-- A reachable state right after the very first fetch failed with a
structured `GQLError` that carries details. -/
def failedState : TableViewerModel :=
  ((TableViewerModel.initModel false).onRequestData 0 1
    (.error (.gql ⟨"boom", true⟩))).1

/-- A store holding four loaded rows. -/
def storeFixture : TableDataModel :=
  { rows := [some ["a0"], some ["a1"], some ["a2"], some ["a3"]],
    columns := ["c0"], loadedRanges := [(0, 4)] }

/-- A fresh model whose store already holds `storeFixture`. -/
def preEditState : TableViewerModel :=
  { TableViewerModel.initModel false with data := storeFixture }

/-- The model after one cell edit: row 2, column 0, new value "X". -/
def editedOnce : TableViewerModel :=
  preEditState.editCellValue 2 0 "X"

/-- A state with two pending edits, at row indices 1 and 3. -/
def editedState : TableViewerModel :=
  { TableViewerModel.initModel false with
    data := storeFixture
    editor := [{ rowIndex := 1, source := ["a1"], edited := ["e1"] },
               { rowIndex := 3, source := ["a3"], edited := ["e3"] }] }

/-- A save result whose rows array is shorter than `editedState`'s two
diffs. -/
def saveMismatch : IRequestDataResult :=
  { rows := [["x"]], columns := [], isFullyLoaded := false,
    duration := none, statusMessage := "bad" }

/-- A save result whose rows align positionally with `editedState`'s two
diffs. -/
def saveMatched : IRequestDataResult :=
  { rows := [["rA"], ["rB"]], columns := [], isFullyLoaded := false,
    duration := some 7, statusMessage := "saved" }

/-- A state that is already fully loaded (`_hasMoreRows` is false). -/
def fullState : TableViewerModel :=
  { TableViewerModel.initModel false with
    data := storeFixture, hasMoreRows := false }

/-- A successful fetch response with an empty rows array that claims the
table is fully loaded. -/
def emptyResp : IRequestDataResult :=
  { rows := [], columns := [], isFullyLoaded := true,
    duration := none, statusMessage := "empty" }

/-! Helper lemmas about the JS-map and sparse-array primitives. -/

namespace TableDataModel

/-- Row lookup in a sparse row array (holes and out-of-range indices
both give `none`). -/
def rowAt (rs : List (Option TableRow)) (i : Nat) : Option TableRow :=
  rs[i]?.bind id

theorem getRow_eq_rowAt (m : TableDataModel) (i : Nat) :
    m.getRow i = rowAt m.rows i := rfl

theorem rowAt_listSetPad_self (rs : List (Option TableRow)) (i : Nat)
    (v : TableRow) : rowAt (listSetPad rs i v) i = some v := by
  unfold listSetPad rowAt
  split
  · rename_i h
    rw [List.getElem?_set_self h]
    rfl
  · rename_i h
    push_neg at h
    rw [List.append_assoc, List.getElem?_append_right h,
      List.getElem?_append_right (by simp)]
    simp

theorem rowAt_listSetPad_ne (rs : List (Option TableRow)) {i j : Nat}
    (hne : j ≠ i) (v : TableRow) :
    rowAt (listSetPad rs i v) j = rowAt rs j := by
  unfold listSetPad rowAt
  split
  · rw [List.getElem?_set_ne (Ne.symm hne)]
  · rename_i h
    push_neg at h
    rcases Nat.lt_or_ge j rs.length with hj | hj
    · rw [List.append_assoc, List.getElem?_append_left hj]
    · rw [List.append_assoc, List.getElem?_append_right hj,
        List.getElem?_eq_none hj, List.getElem?_append]
      split
      · rename_i hlt
        simp only [List.length_replicate] at hlt
        rw [List.getElem?_replicate, if_pos hlt]
        rfl
      · rename_i h2
        push_neg at h2
        simp only [List.length_replicate] at h2
        rw [List.getElem?_eq_none
          (by simp only [List.length_singleton, List.length_replicate]; omega)]

theorem rowAt_foldl_listSetPad_of_fresh
    (mapping : SomeTableRows) (k : Nat)
    (h : ∀ p ∈ mapping, p.1 ≠ k) :
    ∀ rs, rowAt (mapping.foldl (fun rs p => listSetPad rs p.1 p.2) rs) k
      = rowAt rs k := by
  induction mapping with
  | nil => intro rs; rfl
  | cons p ps ih =>
    intro rs
    rw [List.foldl_cons,
      ih fun q hq => h q (List.mem_cons_of_mem _ hq),
      rowAt_listSetPad_ne _ (Ne.symm (h p (List.mem_cons_self _ _))) _]

theorem rowAt_foldl_listSetPad_of_mem
    (mapping : SomeTableRows) (k : Nat) (v : TableRow)
    (hnd : (mapping.map Prod.fst).Nodup) (hmem : (k, v) ∈ mapping) :
    ∀ rs, rowAt (mapping.foldl (fun rs p => listSetPad rs p.1 p.2) rs) k
      = some v := by
  induction mapping with
  | nil => cases hmem
  | cons p ps ih =>
    intro rs
    rw [List.map_cons, List.nodup_cons] at hnd
    rw [List.foldl_cons]
    rcases List.mem_cons.mp hmem with heq | hmem'
    · subst heq
      rw [rowAt_foldl_listSetPad_of_fresh ps k ?_, rowAt_listSetPad_self]
      intro q hq hqk
      apply hnd.1
      have := List.mem_map_of_mem Prod.fst hq
      rwa [hqk] at this
    · exact ih hnd.2 hmem' _

end TableDataModel

theorem mapSet_of_fresh (l : SomeTableRows) (k : Nat) (v : TableRow)
    (h : ∀ q ∈ l, q.1 ≠ k) : mapSet l k v = l ++ [(k, v)] := by
  have hfalse : l.any (fun p => p.1 = k) = false := by
    simp only [List.any_eq_false, decide_eq_true_eq]
    exact h
  simp [mapSet, hfalse]

theorem foldl_mapSet_eq_append {α : Type} (key : α → Nat) (val : α → TableRow)
    (ps : List α) :
    ∀ (acc : SomeTableRows),
      (ps.map key).Nodup → (∀ p ∈ ps, ∀ q ∈ acc, key p ≠ q.1) →
      ps.foldl (fun a p => mapSet a (key p) (val p)) acc
        = acc ++ ps.map (fun p => (key p, val p)) := by
  induction ps with
  | nil => intro acc _ _; simp
  | cons p ps ih =>
    intro acc hnd hfresh
    rw [List.map_cons, List.nodup_cons] at hnd
    rw [List.foldl_cons,
      mapSet_of_fresh _ _ _
        (fun q hq => Ne.symm (hfresh p (List.mem_cons_self _ _) q hq)),
      ih (acc ++ [(key p, val p)]) hnd.2 ?_]
    · simp
    · intro p' hp' q hq
      rcases List.mem_append.mp hq with hq | hq
      · exact hfresh p' (List.mem_cons_of_mem _ hp') q hq
      · have hq' : q = (key p, val p) := List.mem_singleton.mp hq
        subst hq'
        intro hcontra
        apply hnd.1
        have := List.mem_map_of_mem key hp'
        rwa [hcontra] at this

namespace TableViewerModel

theorem zipDiffAndResults_of_nodup (diff : List RowDiff)
    (newRows : List TableRow) (hlen : diff.length = newRows.length)
    (hnd : (diff.map RowDiff.rowIndex).Nodup) :
    zipDiffAndResults diff newRows
      = .ok ((diff.zip newRows).map fun p => (p.1.rowIndex, p.2)) := by
  have hkeys : (diff.zip newRows).map (fun p => p.1.rowIndex)
      = diff.map RowDiff.rowIndex := by
    conv_rhs => rw [← List.map_fst_zip diff newRows (le_of_eq hlen)]
    rw [List.map_map]
    rfl
  unfold zipDiffAndResults
  rw [if_neg (by omega)]
  have hfold := foldl_mapSet_eq_append
    (fun p : RowDiff × TableRow => p.1.rowIndex) (fun p => p.2)
    (diff.zip newRows) [] (by rw [hkeys]; exact hnd) (by intro p _ q hq; cases hq)
  simpa using hfold

theorem revert_foldl_eq (diffs : List RowDiff)
    (hnd : (diffs.map RowDiff.rowIndex).Nodup) :
    diffs.foldl (fun acc d => mapSet acc d.rowIndex d.source) []
      = diffs.map fun d => (d.rowIndex, d.source) := by
  have hfold := foldl_mapSet_eq_append RowDiff.rowIndex RowDiff.source
    diffs [] hnd (by intro p _ q hq; cases hq)
  simpa using hfold

theorem getRow_updateRows_zip (dm : TableDataModel) (diff : List RowDiff)
    (newRows : List TableRow) (hlen : diff.length = newRows.length)
    (hnd : (diff.map RowDiff.rowIndex).Nodup)
    (i : Nat) (hi : i < diff.length) :
    (dm.updateRows ((diff.zip newRows).map fun p => (p.1.rowIndex, p.2))).getRow
        diff[i].rowIndex = newRows[i]? := by
  have hkeys : (((diff.zip newRows).map fun p => (p.1.rowIndex, p.2)).map Prod.fst)
      = diff.map RowDiff.rowIndex := by
    rw [List.map_map]
    conv_rhs => rw [← List.map_fst_zip diff newRows (le_of_eq hlen)]
    rw [List.map_map]
    rfl
  have hi2 : i < newRows.length := by omega
  have hiz : i < (diff.zip newRows).length := by
    rw [List.length_zip]; omega
  have him : i < ((diff.zip newRows).map fun p => (p.1.rowIndex, p.2)).length := by
    simpa using hiz
  have hmem : (diff[i].rowIndex, newRows[i]) ∈
      ((diff.zip newRows).map fun p => (p.1.rowIndex, p.2)) := by
    have hval : ((diff.zip newRows).map fun p => (p.1.rowIndex, p.2))[i]
        = (diff[i].rowIndex, newRows[i]) := by
      simp [List.getElem_map, List.getElem_zip]
    rw [← hval]
    exact List.getElem_mem him
  rw [List.getElem?_eq_getElem hi2]
  exact TableDataModel.rowAt_foldl_listSetPad_of_mem _ _ _
    (by rw [hkeys]; exact hnd) hmem dm.rows

theorem trySaveChanges_error (m : TableViewerModel) (diffs : List RowDiff)
    (e : RemoteError) :
    m.trySaveChanges diffs (.error e)
      = ({ m with isLoaderVisibleF := false }, some e) := rfl

theorem trySaveChanges_mismatch (m : TableViewerModel) (diffs : List RowDiff)
    (data : IRequestDataResult) (hlen : diffs.length ≠ data.rows.length) :
    m.trySaveChanges diffs (.ok data)
      = ({ m with isLoaderVisibleF := false },
         some (.generic "Error" "expected that new rows have same length as diff")) := by
  have hz : zipDiffAndResults diffs data.rows
      = .error (.generic "Error" "expected that new rows have same length as diff") := by
    unfold zipDiffAndResults
    rw [if_pos hlen]
  simp only [trySaveChanges, hz, saveBegin]

theorem trySaveChanges_success (m : TableViewerModel) (diffs : List RowDiff)
    (data : IRequestDataResult) (rows : SomeTableRows)
    (hzip : zipDiffAndResults diffs data.rows = .ok rows) :
    m.trySaveChanges diffs (.ok data)
      = ({ m with
            editor := []
            data := m.data.updateRows rows
            bridge := m.bridge ++ rows
            errorMessage := ""
            queryDuration := data.duration.getD 0
            requestStatusMessage := data.statusMessage
            isLoaderVisibleF := false }, none) := by
  simp only [trySaveChanges, hzip, saveBegin, updateAgGridRows, clearErrors,
    updateInfo]

theorem revertChanges_eq (m : TableViewerModel) (diffs : List RowDiff)
    (hnd : (diffs.map RowDiff.rowIndex).Nodup) :
    m.revertChanges diffs
      = { m with
          editor := []
          bridge := m.bridge ++ (diffs.map fun d => (d.rowIndex, d.source)) } := by
  unfold revertChanges updateAgGridRows
  rw [revert_foldl_eq diffs hnd]

end TableViewerModel

namespace TableViewerModel

theorem onRequestData_cacheHit (m : TableViewerModel) (o c : Nat)
    (out : Except RemoteError IRequestDataResult)
    (h : (m.data.isChunkLoaded o c || m.isFullyLoaded) = true) :
    m.onRequestData o c out
      = (m, .ok
          { rows := m.data.getChunk o c
            columns := m.data.columns
            isFullyLoaded := m.isFullyLoaded }) := by
  unfold onRequestData
  rw [if_pos h]

theorem onRequestData_fst_of_fullyLoaded (m : TableViewerModel) (o c : Nat)
    (out : Except RemoteError IRequestDataResult)
    (h : m.hasMoreRows = false) :
    (m.onRequestData o c out).1 = m := by
  unfold onRequestData
  rw [if_pos (by simp [isFullyLoaded, h])]

theorem onRequestData_ok_fields (m : TableViewerModel) (o c : Nat)
    (resp : IRequestDataResult)
    (hmiss : (m.data.isChunkLoaded o c || m.isFullyLoaded) = false) :
    (m.onRequestData o c (.ok resp)).1.hasMoreRows
      = (if m.data.rows.length < o + resp.rows.length then !resp.isFullyLoaded
         else m.hasMoreRows)
    ∧ (m.onRequestData o c (.ok resp)).1.errorMessage = ""
    ∧ (m.onRequestData o c (.ok resp)).1.hasDetails = m.hasDetails
    ∧ (m.onRequestData o c (.ok resp)).1.exception = m.exception
    ∧ (m.onRequestData o c (.ok resp)).1.isLoaderVisibleF = false := by
  unfold onRequestData
  rw [if_neg (by simp [hmiss])]
  simp only [requestBegin, insertRows, clearErrors, updateInfo]
  split <;> simp

theorem onRequestData_loader (m : TableViewerModel) (o c : Nat)
    (out : Except RemoteError IRequestDataResult)
    (h : m.isLoaderVisibleF = false) :
    ((m.onRequestData o c out).1).isLoaderVisibleF = false := by
  unfold onRequestData
  split
  · exact h
  · rcases out with e | resp
    · rfl
    · rfl

theorem revertChanges_isLoaderVisibleF (m : TableViewerModel)
    (diffs : List RowDiff) :
    (m.revertChanges diffs).isLoaderVisibleF = m.isLoaderVisibleF := rfl

theorem trySaveChanges_isLoaderVisibleF (m : TableViewerModel)
    (diffs : List RowDiff) (out : Except RemoteError IRequestDataResult) :
    ((m.trySaveChanges diffs out).1).isLoaderVisibleF = false := by
  rcases out with e | data
  · rfl
  · simp only [trySaveChanges]
    rcases h : zipDiffAndResults diffs data.rows with e | rows <;> rfl

theorem saveLoop_isLoaderVisibleF (diffs : List RowDiff) :
    ∀ (oracle : List (Except RemoteError IRequestDataResult × Bool))
      (m : TableViewerModel), m.isLoaderVisibleF = false →
      (saveLoop diffs m oracle).isLoaderVisibleF = false := by
  intro oracle
  induction oracle with
  | nil => intro m h; exact h
  | cons p rest ih =>
    intro m h
    rcases p with ⟨out, tryAgain⟩
    simp only [saveLoop]
    rcases hr : (m.trySaveChanges diffs out).2 with _ | e
    · exact trySaveChanges_isLoaderVisibleF m diffs out
    · cases tryAgain with
      | false =>
        rw [if_neg (by simp), revertChanges_isLoaderVisibleF]
        exact trySaveChanges_isLoaderVisibleF m diffs out
      | true =>
        rw [if_pos rfl]
        exact ih _ (trySaveChanges_isLoaderVisibleF m diffs out)

theorem onSaveChanges_isLoaderVisibleF (m : TableViewerModel)
    (oracle : List (Except RemoteError IRequestDataResult × Bool))
    (h : m.isLoaderVisibleF = false) :
    (m.onSaveChanges oracle).isLoaderVisibleF = false := by
  unfold onSaveChanges
  show (if m.editor.length = 0 then m
    else saveLoop m.editor m oracle).isLoaderVisibleF = false
  split
  · exact h
  · exact saveLoop_isLoaderVisibleF _ _ _ h

theorem editCellValue_isLoaderVisibleF (m : TableViewerModel) (r c : Nat)
    (v : CellValue) :
    (m.editCellValue r c v).isLoaderVisibleF = m.isLoaderVisibleF := by
  unfold editCellValue
  split <;> rfl

theorem applyEvent_isLoaderVisibleF (m : TableViewerModel) (e : Event)
    (h : m.isLoaderVisibleF = false) :
    (m.applyEvent e).isLoaderVisibleF = false := by
  cases e with
  | fetch o c out => exact onRequestData_loader m o c out h
  | save oracle => exact onSaveChanges_isLoaderVisibleF m oracle h
  | editCell r c v =>
    rw [applyEvent, editCellValue_isLoaderVisibleF]
    exact h
  | editCancel => exact h
  | reset => exact h
  | chunk c => exact h

theorem run_isLoaderVisibleF :
    ∀ (evs : List Event) (m : TableViewerModel),
      m.isLoaderVisibleF = false → (m.run evs).isLoaderVisibleF = false := by
  intro evs
  induction evs with
  | nil => intro m h; exact h
  | cons e es ih =>
    intro m h
    exact ih _ (applyEvent_isLoaderVisibleF m e h)

theorem runFetches_hasMoreRows_false :
    ∀ (fs : List (Nat × Nat × Except RemoteError IRequestDataResult))
      (m : TableViewerModel), m.hasMoreRows = false →
      (m.runFetches fs).hasMoreRows = false := by
  intro fs
  induction fs with
  | nil => intro m h; exact h
  | cons f rest ih =>
    intro m h
    rcases f with ⟨o, c, out⟩
    simp only [runFetches]
    rw [onRequestData_fst_of_fullyLoaded m o c out h]
    exact ih m h

end TableViewerModel

namespace TableViewerModel

theorem onSaveChanges_declined (m : TableViewerModel) (e : RemoteError)
    (rest : List (Except RemoteError IRequestDataResult × Bool))
    (hne : m.editor.length ≠ 0) :
    m.onSaveChanges ((.error e, false) :: rest)
      = ({ m with isLoaderVisibleF := false }).revertChanges m.editor := by
  unfold onSaveChanges
  show (if m.editor.length = 0 then m
    else saveLoop m.editor m ((.error e, false) :: rest)) = _
  rw [if_neg hne]
  simp [saveLoop, trySaveChanges_error]

/-- C1 counterexample: the claim says a commit cycle whose save returns a
rows array of the wrong length aborts as a fatal, non-retryable error,
leaving everything unchanged. In the code, the length-mismatch error
thrown by `zipDiffAndResults` is caught by the same `onSaveChanges`
retry loop as a remote failure: here the first attempt is mismatched
(one row for two diffs), the user retries, and the second attempt
commits — clearing the pending set, writing the store, growing the
bridge log and updating the status — so the cycle did not abort. -/
theorem c1_counterexample :
    editedState.editor.length ≠ saveMismatch.rows.length
    ∧ (editedState.onSaveChanges
        [(.ok saveMismatch, true), (.ok saveMatched, false)]).editor = []
    ∧ (editedState.onSaveChanges
        [(.ok saveMismatch, true), (.ok saveMatched, false)]).data.getRow 1
        = some ["rA"]
    ∧ (editedState.onSaveChanges
        [(.ok saveMismatch, true), (.ok saveMatched, false)]).bridge
        ≠ editedState.bridge
    ∧ (editedState.onSaveChanges
        [(.ok saveMismatch, true), (.ok saveMatched, false)]).requestStatusMessage
        ≠ editedState.requestStatusMessage := by decide

/-- C1 (amended): a save attempt whose returned rows length differs from
the diffs length throws before any write — the resulting state equals
the pre-attempt state except for the cleared loader flag, so the store,
pending-edit set, status/duration, error state and bridge are untouched
by that attempt — but the thrown error is a generic `Error` handled by
the same retry/revert dialog loop as a remote save failure: declining
reverts, and retrying continues the cycle with the same diffs. -/
theorem c1_mismatch_attempt_frame_but_retryable
    (m : TableViewerModel) (data : IRequestDataResult)
    (rest : List (Except RemoteError IRequestDataResult × Bool))
    (hlen : m.editor.length ≠ data.rows.length)
    (hne : m.editor.length ≠ 0) :
    m.trySaveChanges m.editor (.ok data)
      = ({ m with isLoaderVisibleF := false },
         some (.generic "Error" "expected that new rows have same length as diff"))
    ∧ m.onSaveChanges ((.ok data, false) :: rest)
        = ({ m with isLoaderVisibleF := false }).revertChanges m.editor
    ∧ m.onSaveChanges ((.ok data, true) :: rest)
        = saveLoop m.editor { m with isLoaderVisibleF := false } rest := by
  have hmm := trySaveChanges_mismatch m m.editor data hlen
  refine ⟨hmm, ?_, ?_⟩
  · unfold onSaveChanges
    show (if m.editor.length = 0 then m
      else saveLoop m.editor m ((.ok data, false) :: rest)) = _
    rw [if_neg hne]
    simp [saveLoop, hmm]
  · unfold onSaveChanges
    show (if m.editor.length = 0 then m
      else saveLoop m.editor m ((.ok data, true) :: rest)) = _
    rw [if_neg hne]
    simp [saveLoop, hmm]

/-- C1 witness: the amended claim instantiated at `editedState` with the
mismatched save result and an empty oracle continuation. -/
theorem c1_witness :
    editedState.trySaveChanges editedState.editor (.ok saveMismatch)
      = ({ editedState with isLoaderVisibleF := false },
         some (.generic "Error" "expected that new rows have same length as diff"))
    ∧ editedState.onSaveChanges [(.ok saveMismatch, false)]
        = ({ editedState with isLoaderVisibleF := false }).revertChanges
            editedState.editor
    ∧ editedState.onSaveChanges [(.ok saveMismatch, true)]
        = saveLoop editedState.editor
            { editedState with isLoaderVisibleF := false } [] :=
  c1_mismatch_attempt_frame_but_retryable editedState saveMismatch []
    (by decide) (by decide)

/-- C2 counterexample: `failedState` holds a structured error with
details; a subsequent successful fetch clears only `errorMessage`,
leaving `hasDetails` true and the stored exception in place — so not
all error state components are cleared by a successful operation. -/
theorem c2_counterexample :
    failedState.hasDetails = true
    ∧ failedState.exception ≠ none
    ∧ (failedState.onRequestData 0 1 (.ok respSuccess)).1.errorMessage = ""
    ∧ (failedState.onRequestData 0 1 (.ok respSuccess)).1.hasDetails = true
    ∧ (failedState.onRequestData 0 1 (.ok respSuccess)).1.exception
        = some { errorText := "boom", details := true } := by decide

/-- C2 (amended): a successful remote fetch (cache-miss path) and a
successful save attempt clear `errorMessage`, but leave `hasDetails`
and the stored exception unchanged; those are only overwritten by the
next `showError`. -/
theorem c2_success_clears_only_errorMessage
    (m m2 : TableViewerModel) (o c : Nat) (resp : IRequestDataResult)
    (diffs : List RowDiff) (data : IRequestDataResult) (rows : SomeTableRows)
    (hmiss : (m.data.isChunkLoaded o c || m.isFullyLoaded) = false)
    (hzip : zipDiffAndResults diffs data.rows = .ok rows) :
    ((m.onRequestData o c (.ok resp)).1.errorMessage = ""
      ∧ (m.onRequestData o c (.ok resp)).1.hasDetails = m.hasDetails
      ∧ (m.onRequestData o c (.ok resp)).1.exception = m.exception)
    ∧ ((m2.trySaveChanges diffs (.ok data)).1.errorMessage = ""
      ∧ (m2.trySaveChanges diffs (.ok data)).1.hasDetails = m2.hasDetails
      ∧ (m2.trySaveChanges diffs (.ok data)).1.exception = m2.exception) := by
  obtain ⟨-, h2, h3, h4, -⟩ := onRequestData_ok_fields m o c resp hmiss
  refine ⟨⟨h2, h3, h4⟩, ?_⟩
  rw [trySaveChanges_success m2 diffs data rows hzip]
  exact ⟨rfl, rfl, rfl⟩

/-- C2 witness: the amended claim instantiated at `failedState` (for the
fetch half) and `editedState` (for the save half). -/
theorem c2_witness :
    ((failedState.onRequestData 0 1 (.ok respSuccess)).1.errorMessage = ""
      ∧ (failedState.onRequestData 0 1 (.ok respSuccess)).1.hasDetails
          = failedState.hasDetails
      ∧ (failedState.onRequestData 0 1 (.ok respSuccess)).1.exception
          = failedState.exception)
    ∧ ((editedState.trySaveChanges editedState.editor (.ok saveMatched)).1.errorMessage
          = ""
      ∧ (editedState.trySaveChanges editedState.editor (.ok saveMatched)).1.hasDetails
          = editedState.hasDetails
      ∧ (editedState.trySaveChanges editedState.editor (.ok saveMatched)).1.exception
          = editedState.exception) :=
  c2_success_clears_only_errorMessage failedState editedState 0 1 respSuccess
    editedState.editor saveMatched [(1, ["rA"]), (3, ["rB"])]
    (by decide) (by rfl)

/-- C3: once `isFullyLoaded` is true (`_hasMoreRows` false), no sequence
of `onRequestData` calls can change it (every call takes the cache
path); independently, an insertion that does not extend past the
current row count never changes `_hasMoreRows`, and an extending
insertion adopts the caller's flag (the server's `!isFullyLoaded`). -/
theorem c3_fully_loaded_stable
    (m : TableViewerModel)
    (fs : List (Nat × Nat × Except RemoteError IRequestDataResult))
    (pos : Nat) (rows : List TableRow) (hasMore : Bool) :
    (m.hasMoreRows = false → (m.runFetches fs).hasMoreRows = false)
    ∧ (pos + rows.length ≤ m.data.rows.length →
        (m.insertRows pos rows hasMore).hasMoreRows = m.hasMoreRows)
    ∧ (m.data.rows.length < pos + rows.length →
        (m.insertRows pos rows hasMore).hasMoreRows = hasMore) := by
  refine ⟨fun h => runFetches_hasMoreRows_false fs m h, fun h => ?_, fun h => ?_⟩
  · show (if m.data.rows.length < pos + rows.length then hasMore
      else m.hasMoreRows) = m.hasMoreRows
    rw [if_neg (by omega)]
  · show (if m.data.rows.length < pos + rows.length then hasMore
      else m.hasMoreRows) = hasMore
    rw [if_pos h]

/-- C3 witness: the three parts instantiated concretely — a fully loaded
state stays fully loaded across a fetch; a non-extending empty insert
keeps the flag; an extending insert adopts the given flag. -/
theorem c3_witness :
    (fullState.runFetches [(0, 2, .ok respSuccess)]).hasMoreRows = false
    ∧ (editedState.insertRows 0 [] false).hasMoreRows = editedState.hasMoreRows
    ∧ (editedState.insertRows 4 [["n"]] false).hasMoreRows = false :=
  ⟨(c3_fully_loaded_stable fullState [(0, 2, .ok respSuccess)] 0 [] true).1
      (by decide),
   (c3_fully_loaded_stable editedState [] 0 [] false).2.1 (by decide),
   (c3_fully_loaded_stable editedState [] 4 [["n"]] false).2.2 (by decide)⟩

end TableViewerModel

namespace TableViewerModel

/-- C4: a successful save whose returned rows match the diffs in length
commits: the attempt throws nothing, the pending-edit set is cleared,
the error message is cleared, status and duration adopt the save
result, the bridge log grows by exactly the (rowIndex, returned row)
pairs in diff order, and for every position i the i-th returned row is
stored at the i-th diff's row index. -/
theorem c4_commit_reconciliation
    (m : TableViewerModel) (data : IRequestDataResult)
    (hlen : m.editor.length = data.rows.length)
    (hnd : (m.editor.map RowDiff.rowIndex).Nodup) :
    (m.trySaveChanges m.editor (.ok data)).2 = none
    ∧ (m.trySaveChanges m.editor (.ok data)).1.editor = []
    ∧ (m.trySaveChanges m.editor (.ok data)).1.errorMessage = ""
    ∧ (m.trySaveChanges m.editor (.ok data)).1.requestStatusMessage
        = data.statusMessage
    ∧ (m.trySaveChanges m.editor (.ok data)).1.queryDuration
        = data.duration.getD 0
    ∧ (m.trySaveChanges m.editor (.ok data)).1.bridge
        = m.bridge ++ ((m.editor.zip data.rows).map fun p => (p.1.rowIndex, p.2))
    ∧ ∀ i, (hi : i < m.editor.length) →
        (m.trySaveChanges m.editor (.ok data)).1.data.getRow
            (m.editor[i]).rowIndex
          = data.rows[i]? := by
  have hzip := zipDiffAndResults_of_nodup m.editor data.rows hlen hnd
  rw [trySaveChanges_success m m.editor data _ hzip]
  refine ⟨rfl, rfl, rfl, rfl, rfl, rfl, ?_⟩
  intro i hi
  exact getRow_updateRows_zip m.data m.editor data.rows hlen hnd i hi

/-- C4 witness: the claim instantiated at `editedState` (diffs at row
indices 1 and 3) with the aligned save result `saveMatched`: rA lands
at row 1 and rB at row 3, and the pending set is cleared. -/
theorem c4_witness :
    (editedState.trySaveChanges editedState.editor (.ok saveMatched)).2 = none
    ∧ (editedState.trySaveChanges editedState.editor (.ok saveMatched)).1.editor
        = []
    ∧ (editedState.trySaveChanges editedState.editor (.ok saveMatched)).1.data.getRow 1
        = some ["rA"]
    ∧ (editedState.trySaveChanges editedState.editor (.ok saveMatched)).1.data.getRow 3
        = some ["rB"] := by
  have h := c4_commit_reconciliation editedState saveMatched (by decide) (by decide)
  exact ⟨h.1, h.2.1, h.2.2.2.2.2.2 0 (by decide), h.2.2.2.2.2.2 1 (by decide)⟩

/-- C5: when the user declines the retry after a save failure — and
likewise on edit cancel — the pending-edit set is cleared, the row
store is not modified, and the bridge receives each diff's pristine
source row at the diff's row index (in diff order). -/
theorem c5_revert_fidelity
    (m : TableViewerModel) (e : RemoteError)
    (rest : List (Except RemoteError IRequestDataResult × Bool))
    (hne : m.editor.length ≠ 0)
    (hnd : (m.editor.map RowDiff.rowIndex).Nodup) :
    ((m.onSaveChanges ((.error e, false) :: rest)).editor = []
      ∧ (m.onSaveChanges ((.error e, false) :: rest)).data = m.data
      ∧ (m.onSaveChanges ((.error e, false) :: rest)).bridge
          = m.bridge ++ (m.editor.map fun d => (d.rowIndex, d.source)))
    ∧ (m.onEditCancel.editor = []
      ∧ m.onEditCancel.data = m.data
      ∧ m.onEditCancel.bridge
          = m.bridge ++ (m.editor.map fun d => (d.rowIndex, d.source))) := by
  have hdecl := onSaveChanges_declined m e rest hne
  have hrev := revertChanges_eq { m with isLoaderVisibleF := false } m.editor hnd
  have hrev2 := revertChanges_eq m m.editor hnd
  constructor
  · rw [hdecl, hrev]
    exact ⟨rfl, rfl, rfl⟩
  · unfold onEditCancel
    rw [hrev2]
    exact ⟨rfl, rfl, rfl⟩

/-- C5 witness: after `editCellValue(2, 0, "X")`, a save failure whose
retry is declined (and likewise a plain edit cancel) clears the pending
set, leaves the store untouched, and pushes row 2's pristine value back
to the bridge. -/
theorem c5_witness :
    ((editedOnce.onSaveChanges [(.error (.generic "E" "fail"), false)]).editor = []
      ∧ (editedOnce.onSaveChanges [(.error (.generic "E" "fail"), false)]).data
          = editedOnce.data
      ∧ (editedOnce.onSaveChanges [(.error (.generic "E" "fail"), false)]).bridge
          = editedOnce.bridge
              ++ (editedOnce.editor.map fun d => (d.rowIndex, d.source)))
    ∧ (editedOnce.onEditCancel.editor = []
      ∧ editedOnce.onEditCancel.data = editedOnce.data
      ∧ editedOnce.onEditCancel.bridge
          = editedOnce.bridge
              ++ (editedOnce.editor.map fun d => (d.rowIndex, d.source))) :=
  c5_revert_fidelity editedOnce (.generic "E" "fail") [] (by decide) (by decide)

/-- C6: the loader flag is false at every quiescent state — starting
from a fresh model, any sequence of completed operations (fetches,
saves with any oracle, edits, cancels, resets, chunk-size changes)
ends with it false, and in particular every save attempt ends with it
false, which is the state in which the retry/revert dialog awaits the
user — while the in-flight state of a fetch sets it per the
`noLoaderWhileRequestingDataAsync` option and the in-flight state of a
save attempt sets it true. -/
theorem c6_loader_discipline :
    (∀ (noL : Bool) (evs : List Event),
        ((initModel noL).run evs).isLoaderVisibleF = false)
    ∧ (∀ m : TableViewerModel, m.requestBegin.isLoaderVisibleF = !m.noLoader)
    ∧ (∀ m : TableViewerModel, m.saveBegin.isLoaderVisibleF = true)
    ∧ (∀ (m : TableViewerModel) (diffs : List RowDiff)
          (out : Except RemoteError IRequestDataResult),
        ((m.trySaveChanges diffs out).1).isLoaderVisibleF = false) :=
  ⟨fun _ evs => run_isLoaderVisibleF evs _ rfl, fun _ => rfl, fun _ => rfl,
    trySaveChanges_isLoaderVisibleF⟩

/-- C7 counterexample: the claim says `resetData()` restores the
first-ever-load initial state including `hasDetails` and the stored
exception; but after a failed fetch stored a structured error,
`resetData` leaves both in place, differing from the fresh state. -/
theorem c7_counterexample :
    failedState.resetData.hasDetails = true
    ∧ failedState.resetData.exception ≠ none
    ∧ (initModel false).hasDetails = false
    ∧ (initModel false).exception = none := by decide

/-- C7 (amended): `resetData()` clears the rows and loaded-range
tracking (so no window counts as cached afterwards), clears status,
duration and `errorMessage`, and sets `_hasMoreRows` back to true; but
it leaves `hasDetails`, the stored exception, the pending-edit set, the
chunk size and the columns unchanged. -/
theorem c7_reset_fields (m : TableViewerModel) :
    (m.resetData.data.rows = []
      ∧ m.resetData.data.loadedRanges = []
      ∧ m.resetData.requestStatusMessage = ""
      ∧ m.resetData.queryDuration = 0
      ∧ m.resetData.hasMoreRows = true
      ∧ m.resetData.errorMessage = ""
      ∧ m.resetData.hasDetails = m.hasDetails
      ∧ m.resetData.exception = m.exception
      ∧ m.resetData.editor = m.editor
      ∧ m.resetData.chunkSize = m.chunkSize
      ∧ m.resetData.data.columns = m.data.columns)
    ∧ (∀ o c, 0 < c → m.resetData.data.isChunkLoaded o c = false) := by
  refine ⟨⟨rfl, rfl, rfl, rfl, rfl, rfl, rfl, rfl, rfl, rfl, rfl⟩, ?_⟩
  intro o c hc
  apply List.all_eq_false.mpr
  exact ⟨0, List.mem_range.mpr hc, by simp [TableViewerModel.resetData,
    TableDataModel.resetData]⟩

/-- C7 witness: the amended claim instantiated at `failedState`. -/
theorem c7_witness :
    failedState.resetData.hasMoreRows = true
    ∧ failedState.resetData.errorMessage = ""
    ∧ failedState.resetData.hasDetails = failedState.hasDetails
    ∧ failedState.resetData.data.isChunkLoaded 0 1 = false :=
  ⟨(c7_reset_fields failedState).1.2.2.2.2.1,
   (c7_reset_fields failedState).1.2.2.2.2.2.1,
   (c7_reset_fields failedState).1.2.2.2.2.2.2.1,
   (c7_reset_fields failedState).2 0 1 (by decide)⟩

/-- C8: when the requested window is chunk-loaded or the table is fully
loaded, `onRequestData` serves the store's chunk and columns, changes no
state at all (the returned pair's state is `m` itself, loader flag
included), and never consults the remote collaborator: its result is
the same for every oracle outcome. -/
theorem c8_cache_hit
    (m : TableViewerModel) (o c : Nat)
    (out out2 : Except RemoteError IRequestDataResult)
    (h : m.data.isChunkLoaded o c = true ∨ m.isFullyLoaded = true) :
    m.onRequestData o c out
      = (m, .ok
          { rows := m.data.getChunk o c
            columns := m.data.columns
            isFullyLoaded := m.isFullyLoaded })
    ∧ m.onRequestData o c out = m.onRequestData o c out2 := by
  have hcond : (m.data.isChunkLoaded o c || m.isFullyLoaded) = true := by
    rcases h with h | h <;> simp [h]
  refine ⟨onRequestData_cacheHit m o c out hcond, ?_⟩
  rw [onRequestData_cacheHit m o c out hcond,
    onRequestData_cacheHit m o c out2 hcond]

/-- C8 witness: a loaded window served from `preEditState`'s store gives
the same result whether the oracle would have failed or succeeded. -/
theorem c8_witness :
    preEditState.onRequestData 0 2 (.error (.generic "E" "x"))
      = (preEditState, .ok
          { rows := preEditState.data.getChunk 0 2
            columns := preEditState.data.columns
            isFullyLoaded := preEditState.isFullyLoaded })
    ∧ preEditState.onRequestData 0 2 (.error (.generic "E" "x"))
      = preEditState.onRequestData 0 2 (.ok respSuccess) :=
  c8_cache_hit preEditState 0 2 (.error (.generic "E" "x")) (.ok respSuccess)
    (Or.inl (by decide))

/-- C9: `setChunkSize(c)` stores `fetchDefault = 200` when `c` is zero
(or when the argument is omitted, as in the constructor), and otherwise
`max 1 (min c 5000)` — the clamp into `[fetchMin, fetchMax]`. -/
theorem c9_chunk_size_clamp (m : TableViewerModel) (c : Int) :
    (m.setChunkSize c).chunkSize = (if c = 0 then 200 else max 1 (min c 5000))
    ∧ (m.updateChunkSize none).chunkSize = 200
    ∧ (initModel false).chunkSize = 200
    ∧ fetchingSettings.fetchMin = 1
    ∧ fetchingSettings.fetchMax = 5000
    ∧ fetchingSettings.fetchDefault = 200 := by
  refine ⟨?_, rfl, rfl, rfl, rfl, rfl⟩
  show getDefaultRowsCount (some c) = _
  by_cases hc : c = 0 <;> simp [getDefaultRowsCount, hc, fetchingSettings]

/-- C10: a successful fetch whose response has an empty rows array, at
an offset not beyond the current row count, leaves `_hasMoreRows`
unchanged regardless of the response's `isFullyLoaded` flag; and
constructing from an `initialState` with empty rows leaves
`_hasMoreRows` at its initial `true` regardless of the state's
`isFullyLoaded` flag. -/
theorem c10_empty_rows_preserve_hasMoreRows
    (m : TableViewerModel) (o c : Nat) (resp : IRequestDataResult)
    (noL : Bool) (st : IRequestDataResult)
    (hrows : resp.rows = []) (ho : o ≤ m.data.rows.length)
    (hst : st.rows = []) :
    ((m.onRequestData o c (.ok resp)).1).hasMoreRows = m.hasMoreRows
    ∧ (mkTableViewerModel noL (some st)).hasMoreRows = true := by
  constructor
  · by_cases hcond : (m.data.isChunkLoaded o c || m.isFullyLoaded) = true
    · rw [onRequestData_cacheHit m o c _ hcond]
    · have hmiss : (m.data.isChunkLoaded o c || m.isFullyLoaded) = false := by
        rwa [Bool.not_eq_true] at hcond
      obtain ⟨h1, -, -, -, -⟩ := onRequestData_ok_fields m o c resp hmiss
      rw [h1, hrows]
      rw [if_neg (by simp only [List.length_nil]; omega)]
  · simp only [mkTableViewerModel, insertRows, updateInfo]
    rw [hst]
    rfl

/-- C10 witness: an empty response flagged fully-loaded, fetched at
offset 4 of a 4-row store (a cache miss), does not change
`_hasMoreRows`; a constructor fed an empty initial state flagged
fully-loaded still starts with `_hasMoreRows` true. -/
theorem c10_witness :
    ((preEditState.onRequestData 4 1 (.ok emptyResp)).1).hasMoreRows
        = preEditState.hasMoreRows
    ∧ (mkTableViewerModel false (some emptyResp)).hasMoreRows = true :=
  c10_empty_rows_preserve_hasMoreRows preEditState 4 1 emptyResp false emptyResp
    rfl (by decide) rfl

end TableViewerModel
